import Mathlib
/-!
Verification of the mstdn-rss2bsky-post pipeline: a shallow embedding of
the HTML-to-richtext segmenter (src/richtext/from_html_impl.rs), the
truncating composer and the dedup-ledger driver loop (src/main.rs),
together with theorems settling the specification's claims.

Rust strings are embedded as lists of Unicode scalar values (Lean Char),
so that Rust `s.chars().count()` is `List.length` and Rust `s.len()`
(the UTF-8 byte count) is `utf8Len` below.
-/

/-- Embedding of a Rust String: its sequence of Unicode scalar values. -/
abbrev Str := List Char

/-- Rust String.len: the UTF-8 byte size of the encoded string. -/
def utf8Len (s : Str) : Nat := (s.map Char.utf8Size).sum

/-- Result type for fallible operations (Rust Result with boxed error). -/
inductive RunResult (α : Type) where
  | err (msg : Str)
  | ok (val : α)
deriving DecidableEq

/-- RichTextSegment from src/richtext/mod.rs: plain text or a link. -/
inductive RichTextSegment where
  | plainText (text : Str)
  | link (text : Str) (link : Str)
deriving DecidableEq

/-- RichText from src/richtext/mod.rs. -/
abbrev RichText := List RichTextSegment

/-- One attribute of an HTML tag (html5ever Attribute, name and value). -/
structure TagAttr where
  name : Str
  value : Str
deriving DecidableEq

/-- An HTML tag token payload (html5ever Tag). -/
structure HtmlTag where
  name : Str
  attrs : List TagAttr
  selfClosing : Bool
deriving DecidableEq

/-- Tokens delivered by the html5ever tokenizer to the sink. -/
inductive HtmlToken where
  | characterTokens (s : Str)
  | nullCharacterToken
  | startTag (tag : HtmlTag)
  | endTag (tag : HtmlTag)
  | doctypeToken
  | commentToken
  | eofToken
  | parseError (msg : Str)
deriving DecidableEq

/-- ProcessState from from_html_impl.rs. -/
inductive ProcessState where
  | notProcessed
  | processingPlainText (textContinue : Str)
  | processingLink (linkTagDepth : Nat) (link : Str) (textContinue : Str)
deriving DecidableEq

/-- Html2RichTextSink from from_html_impl.rs. -/
structure Html2RichTextSink where
  text : RichText
  tagDepth : Nat
  state : ProcessState
  err : Option Str
deriving DecidableEq

/-- Html2RichTextSink::process_plain_char. -/
def processPlainChar (s : Html2RichTextSink) (c : Char) : Html2RichTextSink :=
  match s.state with
  | ProcessState.notProcessed =>
      { s with state := ProcessState.processingPlainText [c] }
  | ProcessState.processingPlainText buf =>
      { s with state := ProcessState.processingPlainText (buf ++ [c]) }
  | ProcessState.processingLink dep lnk buf =>
      { s with state := ProcessState.processingLink dep lnk (buf ++ [c]) }

/-- Html2RichTextSink::end_process: flush the current accumulation.
A pending link is emitted only if the current tag depth is at most the
depth recorded when the link opened. -/
def endProcess (s : Html2RichTextSink) : Html2RichTextSink :=
  match s.state with
  | ProcessState.notProcessed =>
      { s with state := ProcessState.notProcessed }
  | ProcessState.processingPlainText buf =>
      { s with
        text := s.text ++ [RichTextSegment.plainText buf],
        state := ProcessState.notProcessed }
  | ProcessState.processingLink dep lnk buf =>
      if s.tagDepth ≤ dep then
        { s with
          text := s.text ++ [RichTextSegment.link buf lnk],
          state := ProcessState.notProcessed }
      else
        { s with state := ProcessState.notProcessed }

/-- Html2RichTextSink::process_start_link: the last href attribute wins;
a nested anchor while already accumulating a link is ignored. -/
def processStartLink (s : Html2RichTextSink) (tag : HtmlTag) : Html2RichTextSink :=
  match tag.attrs.foldl
      (fun acc attr => if attr.name = ("href".toList) then some attr.value else acc) none with
  | none => s
  | some lnk =>
      match s.state with
      | ProcessState.processingLink _ _ _ => s
      | _ =>
          { endProcess s with
            state := ProcessState.processingLink (endProcess s).tagDepth lnk [] }

/-- Html2RichTextSink::process_start_tag. -/
def processStartTag (s : Html2RichTextSink) (tag : HtmlTag) : Html2RichTextSink :=
  let s2 :=
    if tag.name = ("br".toList) then processPlainChar s (Char.ofNat 10)
    else if tag.name = ("a".toList) then processStartLink s tag
    else s
  { s2 with tagDepth := s2.tagDepth + 1 }

/-- Html2RichTextSink::process_eng_tag: decrement the unsigned depth
counter, then an anchor end flushes the accumulation. The decrement
`self.tag_depth -= 1` on usize underflows at depth 0 (a stray end tag);
like the composer budget underflow this is a Rust panic, embedded as
`none` under checked-overflow semantics. -/
def processEngTag (s : Html2RichTextSink) (tag : HtmlTag) : Option Html2RichTextSink :=
  match s.tagDepth with
  | 0 => none
  | d + 1 =>
      if tag.name = ("a".toList) then some (endProcess { s with tagDepth := d })
      else some { s with tagDepth := d }

/-- Html2RichTextSink::process_token; `none` propagates the depth-counter
underflow panic of process_eng_tag. -/
def processToken (s : Html2RichTextSink) (t : HtmlToken) : Option Html2RichTextSink :=
  match t with
  | HtmlToken.characterTokens cs => some (cs.foldl processPlainChar s)
  | HtmlToken.nullCharacterToken => some (processPlainChar s (Char.ofNat 0))
  | HtmlToken.startTag tag =>
      if tag.selfClosing then processEngTag (processStartTag s tag) tag
      else some (processStartTag s tag)
  | HtmlToken.endTag tag => processEngTag s tag
  | HtmlToken.doctypeToken => some s
  | HtmlToken.commentToken => some s
  | HtmlToken.eofToken => some (endProcess s)
  | HtmlToken.parseError e => some { s with err := some e }

/-- The sink as initialised by from_html. -/
def initSink : Html2RichTextSink :=
  { text := [], tagDepth := 0, state := ProcessState.notProcessed, err := none }

/-- Feeding a token stream to the sink (Tokenizer::feed); `none` means
the run panicked on a depth-counter underflow. -/
def runSink (ts : List HtmlToken) : Option Html2RichTextSink :=
  ts.foldl (fun acc t => acc.bind fun s => processToken s t) (some initSink)

/-- from_html at the token level: feed the stream, then tokenizer.end()
delivers the EOF token; a recorded parse error discards all segments;
`none` means the run panicked before returning any result. -/
def fromHtmlTokens (ts : List HtmlToken) : Option (RunResult RichText) :=
  match (runSink ts).bind (fun s => processToken s HtmlToken.eofToken) with
  | none => none
  | some s =>
      match s.err with
      | some e => some (RunResult.err e)
      | none => some (RunResult.ok s.text)

/-- A Bluesky richtext facet: a byte range of the output tagged with a
link target (bsky::richtext::facet::Main with a single Link feature). -/
structure Facet where
  byteStart : Nat
  byteEnd : Nat
  uri : Str
deriving DecidableEq

/-- State of the composition loop after processing some segments. -/
structure ComposeResult where
  content : Str
  limitCount : Nat
  needTruncate : Bool
  facets : List Facet
deriving DecidableEq

/-- The segment loop of post_item: fit-or-truncate each segment into the
remaining character budget; a link segment records a facet over the byte
range of the text just appended; truncation stops the loop. -/
def composeLoop (limit : Nat) (content : Str) (facets : List Facet) :
    List RichTextSegment → ComposeResult
  | [] => { content := content, limitCount := limit, needTruncate := false, facets := facets }
  | RichTextSegment.plainText text :: rest =>
      if text.length > limit then
        { content := content ++ text.take limit, limitCount := 0,
          needTruncate := true, facets := facets }
      else
        composeLoop (limit - text.length) (content ++ text) facets rest
  | RichTextSegment.link text lnk :: rest =>
      if text.length > limit then
        let content2 := content ++ text.take limit
        { content := content2, limitCount := 0, needTruncate := true,
          facets := facets ++ [⟨utf8Len content, utf8Len content2, lnk⟩] }
      else
        let content2 := content ++ text
        composeLoop (limit - text.length) content2
          (facets ++ [⟨utf8Len content, utf8Len content2, lnk⟩]) rest

/-- The ellipsis marker appended on truncation. -/
def ellipsisStr : Str := "...\n".toList

/-- The tail of post_item after the segment loop: optional ellipsis, the
original-link prefix text, then the item link with its trailing facet. -/
def composeFinish (origLinkPfx itemLink : Str) (r : ComposeResult) : Str × List Facet :=
  let content1 := if r.needTruncate then r.content ++ ellipsisStr else r.content
  let content2 := content1 ++ origLinkPfx
  (content2 ++ itemLink,
   r.facets ++ [⟨utf8Len content2, utf8Len (content2 ++ itemLink), itemLink⟩])

/-- The composition part of post_item. The initial remaining-budget
computation `post_text_limit - prefix.chars - link.chars - 4` is on an
unsigned counter: when it underflows the Rust program panics, embedded
here as `none`. -/
def compose (postTextLimit : Nat) (origLinkPfx itemLink : Str)
    (segs : List RichTextSegment) : Option (Str × List Facet) :=
  if postTextLimit < origLinkPfx.length + itemLink.length + 4 then none
  else
    some (composeFinish origLinkPfx itemLink
      (composeLoop (postTextLimit - origLinkPfx.length - itemLink.length - 4) [] [] segs))

/-- The fields of rss::Item used by the driver. -/
structure Item where
  description : Option Str
  link : Option Str
deriving DecidableEq

/-- Error message of post_item for an item without a description. -/
def descErrMsg : Str := "Failed to get any descriptions of the given RSS item.".toList

/-- Error message of post_item for an item without a link. -/
def linkErrMsg : Str := "Failed to get any links of the given RSS item.".toList

/-- Stand-in for the Rust panic on unsigned-subtraction underflow in the
budget computation of post_item. -/
def underflowPanicMsg : Str := "attempt to subtract with overflow".toList

/-- Outcome of post_item for one feed item. -/
inductive ItemResult where
  | err (msg : Str)
  | alreadyPosted (lnk : Str)
  | posted (lnk : Str) (desc : Str)
deriving DecidableEq

/-- post_item (src/main.rs lines 294-425): missing description or link is
an error; a link already in the ledger set returns without posting;
otherwise the body is segmented, composed and submitted. -/
def postItemModel (segFn : Str → RunResult RichText) (doneLinks : List Str)
    (origLinkPfx : Str) (postTextLimit : Nat) (it : Item) : ItemResult :=
  match it.description with
  | none => ItemResult.err descErrMsg
  | some desc =>
    match it.link with
    | none => ItemResult.err linkErrMsg
    | some lnk =>
      if lnk ∈ doneLinks then ItemResult.alreadyPosted lnk
      else
        match segFn desc with
        | RunResult.err e => ItemResult.err e
        | RunResult.ok segs =>
          match compose postTextLimit origLinkPfx lnk segs with
          | none => ItemResult.err underflowPanicMsg
          | some _ => ItemResult.posted lnk desc

/-- Per-item line of the run output: the item's link and whether it was
posted this run (false: reported as already posted). -/
structure ItemOutcome where
  origLink : Str
  posted : Bool
deriving DecidableEq

/-- Accumulated effects of the item loop of post_items. -/
structure LoopAcc where
  reports : List ItemOutcome
  segmented : List Str
  submitted : List Str
  ledgerAppends : List Str
  linksForSave : List Str
deriving DecidableEq

/-- The item loop of post_items (src/main.rs lines 230-259), already in
processing order (the caller reverses the feed list): an item error
aborts the run; a successful post is submitted, durably appended to the
ledger and added to the retained list. -/
def postLoop (segFn : Str → RunResult RichText) (doneLinks : List Str)
    (origLinkPfx : Str) (postTextLimit : Nat) :
    List Item → LoopAcc → RunResult LoopAcc
  | [], acc => RunResult.ok acc
  | it :: rest, acc =>
    match postItemModel segFn doneLinks origLinkPfx postTextLimit it with
    | ItemResult.err e => RunResult.err e
    | ItemResult.alreadyPosted lnk =>
        postLoop segFn doneLinks origLinkPfx postTextLimit rest
          { acc with reports := acc.reports ++ [⟨lnk, false⟩] }
    | ItemResult.posted lnk desc =>
        postLoop segFn doneLinks origLinkPfx postTextLimit rest
          { reports := acc.reports ++ [⟨lnk, true⟩],
            segmented := acc.segmented ++ [desc],
            submitted := acc.submitted ++ [lnk],
            ledgerAppends := acc.ledgerAppends ++ [lnk],
            linksForSave := acc.linksForSave ++ [lnk] }

/-- One step of the ledger-load retention queue (src/main.rs lines
211-215): push the line, popping the front when the queue exceeds
min_save_posts. -/
def loadForSaveStep (minSavePosts : Nat) (dq : List Str) (l : Str) : List Str :=
  let dq2 := dq ++ [l]
  if dq2.length > minSavePosts then dq2.drop 1 else dq2

/-- The ledger-load retention queue over all ledger lines (src/main.rs
lines 204-219). -/
def loadForSave (minSavePosts : Nat) (lines : List Str) : List Str :=
  lines.foldl (loadForSaveStep minSavePosts) []

/-- Observable effects of one post_items cycle. -/
structure RunTrace where
  reports : List ItemOutcome
  segmented : List Str
  submitted : List Str
  ledgerCreated : Bool
  ledgerAppends : List Str
  ledgerRewrite : Option (List Str)
  lockWritten : Bool
deriving DecidableEq

/-- The trace of a dry run: nothing is created, written, segmented or
submitted. -/
def emptyRunTrace : RunTrace :=
  { reports := [], segmented := [], submitted := [], ledgerCreated := false,
    ledgerAppends := [], ledgerRewrite := none, lockWritten := false }

/-- post_items (src/main.rs lines 158-276): in a dry run only messages are
printed; otherwise create the ledger, take the lock, load the ledger set
and the capped retention queue, process items newest-to-oldest reversed
(oldest first), and rewrite the ledger with the retained list. -/
def postItemsModel (dryRun : Bool) (segFn : Str → RunResult RichText)
    (items : List Item) (origLinkPfx : Str) (minSavePosts postTextLimit : Nat)
    (ledgerLines : List Str) : RunResult RunTrace :=
  if dryRun then RunResult.ok emptyRunTrace
  else
    match postLoop segFn ledgerLines origLinkPfx postTextLimit items.reverse
        { reports := [], segmented := [], submitted := [], ledgerAppends := [],
          linksForSave := loadForSave minSavePosts ledgerLines } with
    | RunResult.err e => RunResult.err e
    | RunResult.ok acc =>
        RunResult.ok
          { reports := acc.reports, segmented := acc.segmented,
            submitted := acc.submitted, ledgerCreated := true,
            ledgerAppends := acc.ledgerAppends,
            ledgerRewrite := some acc.linksForSave, lockWritten := true }

/-- fetch_items (src/main.rs lines 145-156): a dry run fetches nothing. -/
def fetchItemsModel (dryRun : Bool) (feedItems : List Item) : List Item :=
  if dryRun then [] else feedItems

/-- command_run's item pipeline: fetch (skipped on dry run) then
post_items. -/
def runPipelineModel (dryRun : Bool) (segFn : Str → RunResult RichText)
    (feedItems : List Item) (origLinkPfx : Str) (minSavePosts postTextLimit : Nat)
    (ledgerLines : List Str) : RunResult RunTrace :=
  postItemsModel dryRun segFn (fetchItemsModel dryRun feedItems) origLinkPfx
    minSavePosts postTextLimit ledgerLines

/-- A segmentation collaborator that always yields a single plain segment. -/
def segFnConst : Str → RunResult RichText :=
  fun d => RunResult.ok [RichTextSegment.plainText d]

/-- The link of a feed item, defaulting to the empty string. -/
def itemLinkD (it : Item) : Str := it.link.getD []

/-- The description of a feed item, defaulting to the empty string. -/
def itemDescD (it : Item) : Str := it.description.getD []

/-- An item that is well-formed, not yet in the ledger set, whose body
segments successfully and whose link fits the budget precondition. -/
def GoodNewItem (segFn : Str → RunResult RichText) (done : List Str)
    (origLinkPfx : Str) (postTextLimit : Nat) (it : Item) : Prop :=
  ∃ dsc l sg, it.description = some dsc ∧ it.link = some l ∧ l ∉ done ∧
    segFn dsc = RunResult.ok sg ∧
    origLinkPfx.length + l.length + 4 ≤ postTextLimit

/-- A facet byte range is character-boundary-correct over the output:
the output decomposes as pre ++ mid ++ suf with the facet's byte offsets
exactly at the UTF-8 boundaries of mid (so slicing the encoded output at
the byte range yields exactly the characters of mid). -/
def FacetSlice (content : Str) (f : Facet) (mid : Str) : Prop :=
  ∃ pre suf, content = pre ++ mid ++ suf ∧ utf8Len pre = f.byteStart ∧
    utf8Len pre + utf8Len mid = f.byteEnd

/-- Provenance of a facet of a composed post: slicing the output at its
byte range falls on character boundaries and yields either a (possibly
truncated, i.e. prefix of the) display text of a Link segment with the
facet's target, or the canonical item link for the trailing facet. -/
def FacetProv (segs : List RichTextSegment) (itemLink : Str) (content : Str)
    (f : Facet) : Prop :=
  ∃ mid, FacetSlice content f mid ∧
    ((∃ t k, RichTextSegment.link t f.uri ∈ segs ∧ mid = t.take k) ∨
     (f.uri = itemLink ∧ mid = itemLink))

theorem utf8Len_append (a b : Str) : utf8Len (a ++ b) = utf8Len a + utf8Len b := by
  simp [utf8Len]

theorem utf8Len_nil : utf8Len [] = 0 := rfl

/-- C10: the initial remaining-budget computation of post_item underflows
its unsigned counter (a Rust panic, embedded as `none`) exactly when
post_text_limit is strictly smaller than the character count of the
original-link prefix plus the character count of the item link plus 4;
the composition returns a result exactly under the unstated precondition
post_text_limit >= chars(original_link_prefix) + chars(item_link) + 4. -/
theorem claim_C10 (p : Nat) (pfx lnk : Str) (segs : List RichTextSegment) :
    compose p pfx lnk segs = none ↔ p < pfx.length + lnk.length + 4 := by
  by_cases h : p < pfx.length + lnk.length + 4 <;> simp [compose, h]

/-- C4 counterexample: at budget 20, trailing prefix "#src:", item link
"https://x/1" and the single segment PlainText("Hello world, this is
long"), the composed text is "...\n#src:https://x/1": the body is
truncated at 0 characters, not at the 20 characters the claim states
(no body text appears in the output). -/
theorem claim_C4_counterexample :
    compose 20 ("#src:".toList) ("https://x/1".toList)
      [RichTextSegment.plainText ("Hello world, this is long".toList)] =
      some ("...\n#src:https://x/1".toList, [⟨9, 20, "https://x/1".toList⟩]) ∧
    ("...\n#src:https://x/1".toList : Str) ≠
      ("Hello world, this is...\n#src:https://x/1".toList) := by decide

/-- C4 (amended): with budget 20, trailing "#src:" and item link
"https://x/1", the budget is first reduced by the prefix (5), the link
(11) and a 4-character reserve, so the body is truncated at 20-5-11-4 = 0
characters; the ellipsis marker is appended, then "#src:https://x/1",
and the result carries exactly one Annotation Span, bytes 9 to 20,
covering the byte range of the URL. -/
theorem claim_C4 :
    compose 20 ("#src:".toList) ("https://x/1".toList)
      [RichTextSegment.plainText ("Hello world, this is long".toList)] =
      some ("...\n#src:https://x/1".toList,
        [{ byteStart := 9, byteEnd := 20, uri := "https://x/1".toList }]) := by decide

/-- C8: a plain-text segment whose character count exactly equals the
remaining budget is appended in full with the truncation flag unset and
segment processing continues (with budget 0); a plain-text segment whose
character count exceeds the remaining budget by one or more characters
is cut to exactly the remaining budget of characters with the truncation
flag set and processing stops. -/
theorem claim_C8 (limit : Nat) (content : Str) (facets : List Facet)
    (text : Str) (rest : List RichTextSegment) :
    (text.length = limit →
      composeLoop limit content facets (RichTextSegment.plainText text :: rest) =
        composeLoop 0 (content ++ text) facets rest) ∧
    (∀ k, text.length = limit + k + 1 →
      composeLoop limit content facets (RichTextSegment.plainText text :: rest) =
        { content := content ++ text.take limit, limitCount := 0,
          needTruncate := true, facets := facets } ∧
      (text.take limit).length = limit) := by
  constructor
  · intro h
    simp only [composeLoop]
    rw [if_neg (by omega)]
    rw [h, Nat.sub_self]
  · intro k hk
    constructor
    · simp only [composeLoop]
      rw [if_pos (by omega)]
    · rw [List.length_take]
      omega

theorem postItemModel_posted (segFn : Str → RunResult RichText) (done : List Str)
    (origLinkPfx : Str) (postTextLimit : Nat) (dsc l : Str) (sg : RichText)
    (hmem : l ∉ done) (hseg : segFn dsc = RunResult.ok sg)
    (hlim : origLinkPfx.length + l.length + 4 ≤ postTextLimit) :
    postItemModel segFn done origLinkPfx postTextLimit ⟨some dsc, some l⟩ =
      ItemResult.posted l dsc := by
  have hc : compose postTextLimit origLinkPfx l sg =
      some (composeFinish origLinkPfx l
        (composeLoop (postTextLimit - origLinkPfx.length - l.length - 4) [] [] sg)) := by
    unfold compose
    rw [if_neg (by omega)]
  simp [postItemModel, hmem, hseg, hc]

theorem postLoop_all_new (segFn : Str → RunResult RichText) (done : List Str)
    (origLinkPfx : Str) (postTextLimit : Nat) :
    ∀ (its : List Item) (acc : LoopAcc),
      (∀ it ∈ its, GoodNewItem segFn done origLinkPfx postTextLimit it) →
      postLoop segFn done origLinkPfx postTextLimit its acc = RunResult.ok
        { reports := acc.reports ++ its.map (fun it => ⟨itemLinkD it, true⟩),
          segmented := acc.segmented ++ its.map itemDescD,
          submitted := acc.submitted ++ its.map itemLinkD,
          ledgerAppends := acc.ledgerAppends ++ its.map itemLinkD,
          linksForSave := acc.linksForSave ++ its.map itemLinkD } := by
  intro its
  induction its with
  | nil =>
      intro acc _
      simp [postLoop]
  | cons it rest ih =>
      intro acc h
      obtain ⟨dsc, l, sg, hd, hl, hmem, hseg, hlim⟩ := h it (List.mem_cons_self it rest)
      obtain ⟨dOpt, lOpt⟩ := it
      simp only [Item.description] at hd
      simp only [Item.link] at hl
      subst hd
      subst hl
      simp only [postLoop,
        postItemModel_posted segFn done origLinkPfx postTextLimit dsc l sg hmem hseg hlim]
      rw [ih _ (fun x hx => h x (List.mem_cons_of_mem _ hx))]
      simp [itemLinkD, itemDescD]

theorem loadForSave_aux (m : Nat) :
    ∀ (lines d : List Str), d.length ≤ m →
      lines.foldl (loadForSaveStep m) d = (d ++ lines).drop ((d ++ lines).length - m) := by
  intro lines
  induction lines with
  | nil =>
      intro d hd
      simp [Nat.sub_eq_zero_of_le hd]
  | cons l ls ih =>
      intro d hd
      rw [List.foldl_cons]
      by_cases hlen : d.length + 1 > m
      · have hdm : d.length = m := by omega
        have hstep : loadForSaveStep m d l = (d ++ [l]).drop 1 := by
          unfold loadForSaveStep
          rw [if_pos (by simp [hdm])]
        have hlen1 : ((d ++ [l]).drop 1).length ≤ m := by simp [hdm]
        rw [hstep, ih _ hlen1]
        have h2 : (d ++ [l]).drop 1 ++ ls = ((d ++ [l]) ++ ls).drop 1 :=
          (List.drop_append_of_le_length (by simp)).symm
        rw [h2, List.drop_drop]
        have h3 : (d ++ [l]) ++ ls = d ++ (l :: ls) := by simp
        rw [h3]
        congr 1
        simp [hdm]
        omega
      · have hstep : loadForSaveStep m d l = d ++ [l] := by
          unfold loadForSaveStep
          rw [if_neg (by simp; omega)]
        have hlen1 : (d ++ [l]).length ≤ m := by simp; omega
        rw [hstep, ih _ hlen1]
        have h3 : (d ++ [l]) ++ ls = d ++ (l :: ls) := by simp
        rw [h3]

/-- Characterisation of the load-time retention queue: it keeps the most
recent min_save_posts ledger lines, oldest first. -/
theorem loadForSave_eq (m : Nat) (lines : List Str) :
    loadForSave m lines = lines.drop (lines.length - m) := by
  have h := loadForSave_aux m lines [] (by simp)
  simpa [loadForSave] using h

/-- Witness for C8 at budget 3: "abc" (3 chars) fits exactly and the loop
continues; "abcd" (4 chars) is cut to exactly 3 characters with the
truncation flag set. -/
theorem claim_C8_witness :
    (composeLoop 3 [] [] [RichTextSegment.plainText ("abc".toList)] =
      composeLoop 0 ([] ++ ("abc".toList)) [] []) ∧
    (composeLoop 3 [] [] [RichTextSegment.plainText ("abcd".toList)] =
      { content := [] ++ ("abcd".toList).take 3, limitCount := 0,
        needTruncate := true, facets := [] } ∧
      (("abcd".toList).take 3).length = 3) :=
  ⟨(claim_C8 3 [] [] ("abc".toList) []).1 (by decide),
   (claim_C8 3 [] [] ("abcd".toList) []).2 0 (by decide)⟩

/-- C1 counterexample: with max_retained (min_save_posts) = 2, a ledger of
5 historical identifiers and a cycle that posts 1 new item, the rewritten
ledger contains 3 identifiers (the 2 most recent historical ones plus the
new one), not the 2 the claim states: the load-time cap is not reapplied
to identifiers posted during the cycle. -/
theorem claim_C1_counterexample :
    postItemsModel false segFnConst
      [⟨some ("d6".toList), some ("https://x/6".toList)⟩]
      ("#src:".toList) 2 50
      [("h1".toList), ("h2".toList), ("h3".toList), ("h4".toList), ("h5".toList)] =
      RunResult.ok
        { reports := [⟨"https://x/6".toList, true⟩],
          segmented := [("d6".toList)],
          submitted := ["https://x/6".toList],
          ledgerCreated := true,
          ledgerAppends := ["https://x/6".toList],
          ledgerRewrite :=
            some [("h4".toList), ("h5".toList), ("https://x/6".toList)],
          lockWritten := true } ∧
    [("h4".toList), ("h5".toList), ("https://x/6".toList)].length ≠ 2 := by
  decide

/-- C1 (amended): for every cycle in which the ledger load sees H
historical identifiers and the run successfully posts P new items, the
end-of-cycle rewrite writes a ledger containing the min(H, max_retained)
most recent historical identifiers followed by all P newly posted
identifiers, one per line, oldest-first order preserved — that is,
min(H, max_retained) + P lines, which can exceed max_retained; the cap is
applied only to the identifiers seen at load time. In particular with
max_retained=2, H=5, P=1 the rewritten ledger contains 3 identifiers. -/
theorem claim_C1 (segFn : Str → RunResult RichText) (items : List Item)
    (origLinkPfx : Str) (minSavePosts postTextLimit : Nat) (ledgerLines : List Str)
    (h : ∀ it ∈ items, GoodNewItem segFn ledgerLines origLinkPfx postTextLimit it) :
    postItemsModel false segFn items origLinkPfx minSavePosts postTextLimit ledgerLines =
      RunResult.ok
        { reports := items.reverse.map (fun it => ⟨itemLinkD it, true⟩),
          segmented := items.reverse.map itemDescD,
          submitted := items.reverse.map itemLinkD,
          ledgerCreated := true,
          ledgerAppends := items.reverse.map itemLinkD,
          ledgerRewrite := some
            (ledgerLines.drop (ledgerLines.length - minSavePosts) ++
              items.reverse.map itemLinkD),
          lockWritten := true } := by
  have hrev : ∀ it ∈ items.reverse, GoodNewItem segFn ledgerLines origLinkPfx postTextLimit it :=
    fun it hit => h it (List.mem_reverse.mp hit)
  simp only [postItemsModel, Bool.false_eq_true, if_false]
  rw [postLoop_all_new segFn ledgerLines origLinkPfx postTextLimit items.reverse _ hrev]
  simp [loadForSave_eq]

/-- Witness for C1: the max_retained=2, H=5, P=1 scenario, with a
single-segment segmentation collaborator and budget 50. -/
theorem claim_C1_witness :
    postItemsModel false segFnConst
      [⟨some ("d6".toList), some ("https://x/6".toList)⟩]
      ("#src:".toList) 2 50
      [("h1".toList), ("h2".toList), ("h3".toList), ("h4".toList), ("h5".toList)] =
      RunResult.ok
        { reports :=
            ([⟨some ("d6".toList), some ("https://x/6".toList)⟩] : List Item).reverse.map
              (fun it => ⟨itemLinkD it, true⟩),
          segmented :=
            ([⟨some ("d6".toList), some ("https://x/6".toList)⟩] : List Item).reverse.map
              itemDescD,
          submitted :=
            ([⟨some ("d6".toList), some ("https://x/6".toList)⟩] : List Item).reverse.map
              itemLinkD,
          ledgerCreated := true,
          ledgerAppends :=
            ([⟨some ("d6".toList), some ("https://x/6".toList)⟩] : List Item).reverse.map
              itemLinkD,
          ledgerRewrite := some
            (([("h1".toList), ("h2".toList), ("h3".toList), ("h4".toList),
               ("h5".toList)] : List Str).drop
              (([("h1".toList), ("h2".toList), ("h3".toList), ("h4".toList),
                 ("h5".toList)] : List Str).length - 2) ++
              ([⟨some ("d6".toList), some ("https://x/6".toList)⟩] : List Item).reverse.map
                itemLinkD),
          lockWritten := true } :=
  claim_C1 segFnConst
    [⟨some ("d6".toList), some ("https://x/6".toList)⟩]
    ("#src:".toList) 2 50
    [("h1".toList), ("h2".toList), ("h3".toList), ("h4".toList), ("h5".toList)]
    (by
      intro it hit
      rw [List.mem_singleton] at hit
      subst hit
      exact ⟨("d6".toList), ("https://x/6".toList),
        [RichTextSegment.plainText ("d6".toList)], rfl, rfl, by decide, rfl, by decide⟩)

/-- C2 counterexample: a run over a well-formed item plus an item lacking
a description returns an error for the whole run (the bad item is
processed first, oldest-first, and its per-item failure propagates), even
though the well-formed item alone would have been posted: the
missing-field failure is fatal to the whole run, and processing does not
continue with the next item. -/
theorem claim_C2_counterexample :
    postItemsModel false segFnConst
      [⟨some ("d2".toList), some ("https://x/2".toList)⟩, ⟨none, some ("https://x/1".toList)⟩]
      ("#src:".toList) 2 50 [] =
      RunResult.err descErrMsg ∧
    postItemsModel false segFnConst
      [⟨some ("d2".toList), some ("https://x/2".toList)⟩]
      ("#src:".toList) 2 50 [] =
      RunResult.ok
        { reports := [⟨"https://x/2".toList, true⟩],
          segmented := [("d2".toList)],
          submitted := ["https://x/2".toList],
          ledgerCreated := true,
          ledgerAppends := ["https://x/2".toList],
          ledgerRewrite := some ["https://x/2".toList],
          lockWritten := true } := by
  decide

/-- C2 (amended): when an item lacks a body (description) or a canonical
link, post_item returns an error and the error operator in the item loop
propagates it, aborting the entire run: no further items are processed
and the ledger rewrite does not happen. Here the offending item sits at
the end of the feed list, so it is the first one processed (the loop
walks the feed reversed, oldest first), and the run fails whatever comes
after it. -/
theorem claim_C2 (segFn : Str → RunResult RichText) (its : List Item) (bad : Item)
    (origLinkPfx : Str) (minSavePosts postTextLimit : Nat) (ledgerLines : List Str) :
    (bad.description = none →
      postItemsModel false segFn (its ++ [bad]) origLinkPfx minSavePosts postTextLimit
        ledgerLines = RunResult.err descErrMsg) ∧
    (∀ dsc, bad.description = some dsc → bad.link = none →
      postItemsModel false segFn (its ++ [bad]) origLinkPfx minSavePosts postTextLimit
        ledgerLines = RunResult.err linkErrMsg) := by
  obtain ⟨dOpt, lOpt⟩ := bad
  constructor
  · intro h
    simp only [Item.description] at h
    subst h
    simp [postItemsModel, List.reverse_append, postLoop, postItemModel]
  · intro dsc hd hl
    simp only [Item.description] at hd
    simp only [Item.link] at hl
    subst hd
    subst hl
    simp [postItemsModel, List.reverse_append, postLoop, postItemModel]

/-- Witness for C2: an item with no description aborts a two-item run,
and an item with a description but no link aborts another. -/
theorem claim_C2_witness :
    postItemsModel false segFnConst
      [⟨some ("d2".toList), some ("https://x/2".toList)⟩, ⟨none, some ("https://x/1".toList)⟩]
      ("#src:".toList) 2 50 [] = RunResult.err descErrMsg ∧
    postItemsModel false segFnConst
      [⟨some ("d2".toList), some ("https://x/2".toList)⟩, ⟨some ("d1".toList), none⟩]
      ("#src:".toList) 2 50 [] = RunResult.err linkErrMsg :=
  ⟨(claim_C2 segFnConst [⟨some ("d2".toList), some ("https://x/2".toList)⟩]
      ⟨none, some ("https://x/1".toList)⟩ ("#src:".toList) 2 50 []).1 rfl,
   (claim_C2 segFnConst [⟨some ("d2".toList), some ("https://x/2".toList)⟩]
      ⟨some ("d1".toList), none⟩ ("#src:".toList) 2 50 []).2 ("d1".toList) rfl rfl⟩

/-- C3: for every item whose canonical link is already in the loaded
ledger set, processing that item performs no posting call (the submitted
list is unchanged), appends nothing to the ledger (appends and retained
list unchanged), and the run output reports the item as already posted;
an item whose link is not in the set (and which is well-formed, segments
successfully and fits the budget precondition) triggers exactly one
posting call, one ledger append and one posted report. -/
theorem claim_C3 (segFn : Str → RunResult RichText) (done : List Str)
    (origLinkPfx : Str) (postTextLimit : Nat) (it : Item) (dsc l : Str)
    (rest : List Item) (acc : LoopAcc)
    (hd : it.description = some dsc) (hl : it.link = some l) :
    (l ∈ done →
      postLoop segFn done origLinkPfx postTextLimit (it :: rest) acc =
        postLoop segFn done origLinkPfx postTextLimit rest
          { acc with reports := acc.reports ++ [⟨l, false⟩] }) ∧
    (l ∉ done → ∀ sg, segFn dsc = RunResult.ok sg →
      origLinkPfx.length + l.length + 4 ≤ postTextLimit →
      postLoop segFn done origLinkPfx postTextLimit (it :: rest) acc =
        postLoop segFn done origLinkPfx postTextLimit rest
          { reports := acc.reports ++ [⟨l, true⟩],
            segmented := acc.segmented ++ [dsc],
            submitted := acc.submitted ++ [l],
            ledgerAppends := acc.ledgerAppends ++ [l],
            linksForSave := acc.linksForSave ++ [l] }) := by
  obtain ⟨dOpt, lOpt⟩ := it
  simp only [Item.description] at hd
  simp only [Item.link] at hl
  subst hd
  subst hl
  constructor
  · intro hmem
    simp [postLoop, postItemModel, hmem]
  · intro hmem sg hseg hlim
    simp only [postLoop,
      postItemModel_posted segFn done origLinkPfx postTextLimit dsc l sg hmem hseg hlim]

/-- Witness for C3: the spec scenario. The ledger contains
"https://x/1"; the run sees items linking "https://x/1" and
"https://x/2". The x/1 step adds only an already-posted report; the x/2
step adds exactly one submission; the whole run submits only
"https://x/2" and reports "https://x/1" as already posted. -/
theorem claim_C3_witness :
    (postLoop segFnConst ["https://x/1".toList] ("#src:".toList) 50
        (⟨some ("d1".toList), some ("https://x/1".toList)⟩ ::
          [⟨some ("d2".toList), some ("https://x/2".toList)⟩])
        { reports := [], segmented := [], submitted := [], ledgerAppends := [],
          linksForSave := [] } =
      postLoop segFnConst ["https://x/1".toList] ("#src:".toList) 50
        [⟨some ("d2".toList), some ("https://x/2".toList)⟩]
        { reports := [⟨"https://x/1".toList, false⟩], segmented := [], submitted := [],
          ledgerAppends := [], linksForSave := [] }) ∧
    (postLoop segFnConst ["https://x/1".toList] ("#src:".toList) 50
        (⟨some ("d2".toList), some ("https://x/2".toList)⟩ :: [])
        { reports := [⟨"https://x/1".toList, false⟩], segmented := [], submitted := [],
          ledgerAppends := [], linksForSave := [] } =
      postLoop segFnConst ["https://x/1".toList] ("#src:".toList) 50 []
        { reports := [⟨"https://x/1".toList, false⟩, ⟨"https://x/2".toList, true⟩],
          segmented := [("d2".toList)],
          submitted := ["https://x/2".toList],
          ledgerAppends := ["https://x/2".toList],
          linksForSave := ["https://x/2".toList] }) ∧
    postItemsModel false segFnConst
      [⟨some ("d2".toList), some ("https://x/2".toList)⟩,
       ⟨some ("d1".toList), some ("https://x/1".toList)⟩]
      ("#src:".toList) 2 50 ["https://x/1".toList] =
      RunResult.ok
        { reports := [⟨"https://x/1".toList, false⟩, ⟨"https://x/2".toList, true⟩],
          segmented := [("d2".toList)],
          submitted := ["https://x/2".toList],
          ledgerCreated := true,
          ledgerAppends := ["https://x/2".toList],
          ledgerRewrite := some ["https://x/1".toList, "https://x/2".toList],
          lockWritten := true } :=
  ⟨(claim_C3 segFnConst ["https://x/1".toList] ("#src:".toList) 50
      ⟨some ("d1".toList), some ("https://x/1".toList)⟩ ("d1".toList) ("https://x/1".toList)
      [⟨some ("d2".toList), some ("https://x/2".toList)⟩]
      { reports := [], segmented := [], submitted := [], ledgerAppends := [],
        linksForSave := [] } rfl rfl).1 (by decide),
   (claim_C3 segFnConst ["https://x/1".toList] ("#src:".toList) 50
      ⟨some ("d2".toList), some ("https://x/2".toList)⟩ ("d2".toList) ("https://x/2".toList)
      []
      { reports := [⟨"https://x/1".toList, false⟩], segmented := [], submitted := [],
        ledgerAppends := [], linksForSave := [] } rfl rfl).2 (by decide)
     [RichTextSegment.plainText ("d2".toList)] rfl (by decide),
   by decide⟩

theorem processPlainChar_err (s : Html2RichTextSink) (c : Char) :
    (processPlainChar s c).err = s.err := by
  obtain ⟨txt, dep, st, er⟩ := s
  cases st <;> rfl

theorem foldl_processPlainChar_err (cs : Str) :
    ∀ s : Html2RichTextSink, (cs.foldl processPlainChar s).err = s.err := by
  induction cs with
  | nil => intro s; rfl
  | cons c cs ih =>
      intro s
      rw [List.foldl_cons, ih, processPlainChar_err]

theorem endProcess_err (s : Html2RichTextSink) : (endProcess s).err = s.err := by
  obtain ⟨txt, dep, st, er⟩ := s
  cases st with
  | notProcessed => rfl
  | processingPlainText buf => rfl
  | processingLink dep2 lnk buf =>
      simp only [endProcess]
      split <;> rfl

theorem processStartLink_err (s : Html2RichTextSink) (tag : HtmlTag) :
    (processStartLink s tag).err = s.err := by
  unfold processStartLink
  cases tag.attrs.foldl
      (fun acc attr => if attr.name = ("href".toList) then some attr.value else acc) none with
  | none => rfl
  | some lnk =>
      obtain ⟨txt, dep, st, er⟩ := s
      cases st <;> rfl

theorem processStartTag_err (s : Html2RichTextSink) (tag : HtmlTag) :
    (processStartTag s tag).err = s.err := by
  unfold processStartTag
  by_cases hbr : tag.name = ("br".toList)
  · simp only [hbr, if_true]
    exact processPlainChar_err s (Char.ofNat 10)
  · rw [if_neg hbr]
    by_cases ha : tag.name = ("a".toList)
    · rw [if_pos ha]
      exact processStartLink_err s tag
    · rw [if_neg ha]

theorem processEngTag_zero (txt : RichText) (st : ProcessState) (er : Option Str)
    (tag : HtmlTag) : processEngTag ⟨txt, 0, st, er⟩ tag = none := rfl

theorem processEngTag_succ (txt : RichText) (d : Nat) (st : ProcessState)
    (er : Option Str) (tag : HtmlTag) :
    processEngTag ⟨txt, d + 1, st, er⟩ tag =
      (if tag.name = ("a".toList) then some (endProcess ⟨txt, d, st, er⟩)
       else some (⟨txt, d, st, er⟩ : Html2RichTextSink)) := rfl

theorem processEngTag_err (s s2 : Html2RichTextSink) (tag : HtmlTag)
    (h : processEngTag s tag = some s2) : s2.err = s.err := by
  obtain ⟨txt, dep, st, er⟩ := s
  cases dep with
  | zero =>
      rw [processEngTag_zero] at h
      exact absurd h (by simp)
  | succ d =>
      rw [processEngTag_succ] at h
      by_cases ha : tag.name = ("a".toList)
      · rw [if_pos ha] at h
        obtain rfl := Option.some.inj h
        rw [endProcess_err]
      · rw [if_neg ha] at h
        obtain rfl := Option.some.inj h
        rfl

theorem processToken_err (s s2 : Html2RichTextSink) (t : HtmlToken)
    (hne : ∀ e, t ≠ HtmlToken.parseError e) (h : processToken s t = some s2) :
    s2.err = s.err := by
  cases t with
  | characterTokens cs =>
      obtain rfl := Option.some.inj h
      exact foldl_processPlainChar_err cs s
  | nullCharacterToken =>
      obtain rfl := Option.some.inj h
      exact processPlainChar_err s (Char.ofNat 0)
  | startTag tag =>
      simp only [processToken] at h
      by_cases hsc : tag.selfClosing
      · rw [if_pos hsc] at h
        rw [processEngTag_err (processStartTag s tag) s2 tag h, processStartTag_err]
      · rw [if_neg hsc] at h
        obtain rfl := Option.some.inj h
        exact processStartTag_err s tag
  | endTag tag => exact processEngTag_err s s2 tag h
  | doctypeToken =>
      obtain rfl := Option.some.inj h
      rfl
  | commentToken =>
      obtain rfl := Option.some.inj h
      rfl
  | eofToken =>
      obtain rfl := Option.some.inj h
      exact endProcess_err s
  | parseError e => exact absurd rfl (hne e)

theorem runSinkStep_none :
    ∀ ts : List HtmlToken,
      ts.foldl (fun acc t => acc.bind fun s => processToken s t) none = none := by
  intro ts
  induction ts with
  | nil => rfl
  | cons t ts ih => exact ih

theorem runSinkFrom_err :
    ∀ (ts : List HtmlToken) (s s2 : Html2RichTextSink),
      ts.foldl (fun acc t => acc.bind fun s => processToken s t) (some s) = some s2 →
      ((∃ e, HtmlToken.parseError e ∈ ts) ∨ (∃ d, s.err = some d)) →
      ∃ d, s2.err = some d ∧ (HtmlToken.parseError d ∈ ts ∨ s.err = some d) := by
  intro ts
  induction ts with
  | nil =>
      intro s s2 hrun h
      obtain rfl := Option.some.inj hrun
      rcases h with ⟨e, he⟩ | ⟨d, hd⟩
      · exact absurd he (List.not_mem_nil (HtmlToken.parseError e))
      · exact ⟨d, hd, Or.inr hd⟩
  | cons t ts2 ih =>
      intro s s2 hrun h
      rw [List.foldl_cons] at hrun
      cases hpt : processToken s t with
      | none =>
          rw [show (some s).bind (fun s => processToken s t) = none from by
                rw [Option.some_bind, hpt],
              runSinkStep_none ts2] at hrun
          exact absurd hrun (by simp)
      | some s1 =>
          rw [show (some s).bind (fun s => processToken s t) = some s1 from by
                rw [Option.some_bind, hpt]] at hrun
          by_cases hpe : ∃ e, t = HtmlToken.parseError e
          · obtain ⟨e, rfl⟩ := hpe
            have hs1 : s1.err = some e := by
              have := Option.some.inj hpt
              rw [← this]
            obtain ⟨d, hd, hOr⟩ := ih s1 s2 hrun (Or.inr ⟨e, hs1⟩)
            refine ⟨d, hd, Or.inl ?_⟩
            rcases hOr with hin | heq
            · exact List.mem_cons_of_mem _ hin
            · rw [hs1] at heq
              obtain rfl : e = d := Option.some.inj heq
              exact List.mem_cons_self _ _
          · push_neg at hpe
            have herr : s1.err = s.err := processToken_err s s1 t hpe hpt
            rcases h with ⟨e, he⟩ | ⟨d, hd⟩
            · rcases List.mem_cons.mp he with heq | hin
              · exact absurd heq.symm (hpe e)
              · obtain ⟨d, hd, hOr⟩ := ih s1 s2 hrun (Or.inl ⟨e, hin⟩)
                refine ⟨d, hd, ?_⟩
                rcases hOr with hin2 | heq2
                · exact Or.inl (List.mem_cons_of_mem _ hin2)
                · rw [herr] at heq2
                  exact Or.inr heq2
            · obtain ⟨d2, hd2, hOr⟩ := ih s1 s2 hrun (Or.inr ⟨d, by rw [herr]; exact hd⟩)
              refine ⟨d2, hd2, ?_⟩
              rcases hOr with hin2 | heq2
              · exact Or.inl (List.mem_cons_of_mem _ hin2)
              · rw [herr] at heq2
                exact Or.inr heq2

/-- C9 counterexample: for the token stream of an input starting with a
stray end tag followed by a structural parse error, processing panics on
the depth-counter underflow at the stray end tag — before the parse
error is ever recorded — so segmentation does not return a ParseError
carrying the diagnostic (it returns no result at all), refuting the
claim for this input. -/
theorem claim_C9_counterexample :
    fromHtmlTokens
      [HtmlToken.endTag ⟨("div".toList), [], false⟩,
       HtmlToken.parseError ("bad".toList)] = none ∧
    (none : Option (RunResult RichText)) ≠ some (RunResult.err ("bad".toList)) := by
  decide

/-- C9 (amended): for every token stream in which the tokenizer reports a
structural parse error at any point and whose processing does not panic
on a depth-counter underflow (no stray end tag at depth 0), segmentation
returns an error carrying one of the stream's diagnostics and no segment
sequence (the error constructor carries no segments: partially
accumulated segments are discarded rather than returned); a stream that
underflows the depth counter instead panics before returning any
result. -/
theorem claim_C9 (ts : List HtmlToken) (s : Html2RichTextSink)
    (hrun : runSink ts = some s) (h : ∃ e, HtmlToken.parseError e ∈ ts) :
    ∃ d, fromHtmlTokens ts = some (RunResult.err d) ∧ HtmlToken.parseError d ∈ ts := by
  obtain ⟨d, herr, hOr⟩ := runSinkFrom_err ts initSink s hrun (Or.inl h)
  have hmem : HtmlToken.parseError d ∈ ts := by
    rcases hOr with hin | habs
    · exact hin
    · exact absurd habs (by simp [initSink])
  refine ⟨d, ?_, hmem⟩
  have h2 : (endProcess s).err = some d := by
    rw [endProcess_err]
    exact herr
  unfold fromHtmlTokens
  rw [hrun]
  rw [show (some s).bind (fun s => processToken s HtmlToken.eofToken) =
      some (endProcess s) from by
    rw [Option.some_bind]
    rfl]
  simp [h2]

/-- Witness for C9: a stream with one parse error and no stray end tag
yields an error result whose diagnostic is in the stream. -/
theorem claim_C9_witness :
    ∃ d, fromHtmlTokens
        [HtmlToken.characterTokens ("x".toList), HtmlToken.parseError ("bad".toList)] =
        some (RunResult.err d) ∧
      HtmlToken.parseError d ∈
        [HtmlToken.characterTokens ("x".toList), HtmlToken.parseError ("bad".toList)] :=
  claim_C9 _
    ⟨[], 0, ProcessState.processingPlainText ("x".toList), some ("bad".toList)⟩
    (by decide) ⟨("bad".toList), by decide⟩

theorem endProcess_plain (txt : RichText) (dep : Nat) (buf : Str) (er : Option Str) :
    endProcess ⟨txt, dep, ProcessState.processingPlainText buf, er⟩ =
      ⟨txt ++ [RichTextSegment.plainText buf], dep, ProcessState.notProcessed, er⟩ := rfl

theorem endProcess_link_le (txt : RichText) (dep dep2 : Nat) (lnk buf : Str)
    (er : Option Str) (h : dep ≤ dep2) :
    endProcess ⟨txt, dep, ProcessState.processingLink dep2 lnk buf, er⟩ =
      ⟨txt ++ [RichTextSegment.link buf lnk], dep, ProcessState.notProcessed, er⟩ := by
  simp only [endProcess]
  rw [if_pos h]

theorem endProcess_link_gt (txt : RichText) (dep dep2 : Nat) (lnk buf : Str)
    (er : Option Str) (h : dep2 < dep) :
    endProcess ⟨txt, dep, ProcessState.processingLink dep2 lnk buf, er⟩ =
      ⟨txt, dep, ProcessState.notProcessed, er⟩ := by
  simp only [endProcess]
  rw [if_neg (Nat.not_le.mpr h)]

/-- C5 counterexample: for the token stream of an anchor with href that is
never closed before end of input (start tag, then character data), the
pending link accumulation does NOT yield a final Link segment: the tag
depth at end of input (1) exceeds the depth recorded at link open (0), so
the end-of-input flush silently discards the link and segmentation
returns an empty segment sequence. -/
theorem claim_C5_counterexample :
    fromHtmlTokens
      [HtmlToken.startTag ⟨("a".toList), [⟨("href".toList), ("x".toList)⟩], false⟩,
       HtmlToken.characterTokens ("hello".toList)] = some (RunResult.ok []) ∧
    some (RunResult.ok ([] : RichText)) ≠
      some (RunResult.ok [RichTextSegment.link ("hello".toList) ("x".toList)]) := by
  decide

/-- C5 (amended): when end of input is reached on a stream whose
processing did not panic on a depth-counter underflow and recorded no
parse error, the segmenter flushes whatever accumulation remains: a
pending plain-text accumulation yields a final PlainText segment; a
pending link accumulation yields a final Link segment only when the tag
depth at end of input is at most the depth recorded when the link
opened — otherwise (for example an anchor with href never closed before
end of input, which leaves the depth one higher) the pending link is
silently discarded and no final segment is emitted for it. -/
theorem claim_C5 (ts : List HtmlToken) (s : Html2RichTextSink)
    (hrun : runSink ts = some s) (herr : s.err = none) :
    (∀ buf, s.state = ProcessState.processingPlainText buf →
      fromHtmlTokens ts =
        some (RunResult.ok (s.text ++ [RichTextSegment.plainText buf]))) ∧
    (∀ dep lnk buf, s.state = ProcessState.processingLink dep lnk buf →
      (s.tagDepth ≤ dep →
        fromHtmlTokens ts =
          some (RunResult.ok (s.text ++ [RichTextSegment.link buf lnk]))) ∧
      (dep < s.tagDepth →
        fromHtmlTokens ts = some (RunResult.ok s.text))) := by
  obtain ⟨txt, dep0, st, er⟩ := s
  simp only at herr
  subst herr
  constructor
  · intro buf hst
    simp only at hst
    subst hst
    unfold fromHtmlTokens
    rw [hrun]
    rw [show (some (⟨txt, dep0, ProcessState.processingPlainText buf, none⟩ :
            Html2RichTextSink)).bind (fun s => processToken s HtmlToken.eofToken) =
        some (⟨txt ++ [RichTextSegment.plainText buf], dep0, ProcessState.notProcessed,
          none⟩ : Html2RichTextSink) from by
      rw [Option.some_bind]
      exact congrArg some (endProcess_plain txt dep0 buf none)]
  · intro dep lnk buf hst
    simp only at hst
    subst hst
    constructor
    · intro hle
      simp only at hle
      unfold fromHtmlTokens
      rw [hrun]
      rw [show (some (⟨txt, dep0, ProcessState.processingLink dep lnk buf, none⟩ :
              Html2RichTextSink)).bind (fun s => processToken s HtmlToken.eofToken) =
          some (⟨txt ++ [RichTextSegment.link buf lnk], dep0, ProcessState.notProcessed,
            none⟩ : Html2RichTextSink) from by
        rw [Option.some_bind]
        exact congrArg some (endProcess_link_le txt dep0 dep lnk buf none hle)]
    · intro hgt
      simp only at hgt
      unfold fromHtmlTokens
      rw [hrun]
      rw [show (some (⟨txt, dep0, ProcessState.processingLink dep lnk buf, none⟩ :
              Html2RichTextSink)).bind (fun s => processToken s HtmlToken.eofToken) =
          some (⟨txt, dep0, ProcessState.notProcessed, none⟩ : Html2RichTextSink) from by
        rw [Option.some_bind]
        exact congrArg some (endProcess_link_gt txt dep0 dep lnk buf none hgt)]

/-- Witness for C5: pending plain text at end of input is flushed as a
final PlainText segment; a pending link whose anchor depth condition
holds (an unrelated end tag brought the depth back) is flushed as a
final Link segment; a pending link of an anchor never closed (depth
still above the recorded depth) is discarded. -/
theorem claim_C5_witness :
    fromHtmlTokens [HtmlToken.characterTokens ("hi".toList)] =
      some (RunResult.ok [RichTextSegment.plainText ("hi".toList)]) ∧
    fromHtmlTokens
        [HtmlToken.startTag ⟨("a".toList), [⟨("href".toList), ("x".toList)⟩], false⟩,
         HtmlToken.characterTokens ("t".toList),
         HtmlToken.endTag ⟨("span".toList), [], false⟩] =
      some (RunResult.ok [RichTextSegment.link ("t".toList) ("x".toList)]) ∧
    fromHtmlTokens
        [HtmlToken.startTag ⟨("a".toList), [⟨("href".toList), ("x".toList)⟩], false⟩,
         HtmlToken.characterTokens ("h".toList)] =
      some (RunResult.ok []) :=
  ⟨(claim_C5 [HtmlToken.characterTokens ("hi".toList)]
      ⟨[], 0, ProcessState.processingPlainText ("hi".toList), none⟩
      (by decide) rfl).1 ("hi".toList) rfl,
   ((claim_C5
      [HtmlToken.startTag ⟨("a".toList), [⟨("href".toList), ("x".toList)⟩], false⟩,
       HtmlToken.characterTokens ("t".toList),
       HtmlToken.endTag ⟨("span".toList), [], false⟩]
      ⟨[], 0, ProcessState.processingLink 0 ("x".toList) ("t".toList), none⟩
      (by decide) rfl).2 0 ("x".toList) ("t".toList) rfl).1 (by decide),
   ((claim_C5
      [HtmlToken.startTag ⟨("a".toList), [⟨("href".toList), ("x".toList)⟩], false⟩,
       HtmlToken.characterTokens ("h".toList)]
      ⟨[], 1, ProcessState.processingLink 0 ("x".toList) ("h".toList), none⟩
      (by decide) rfl).2 0 ("x".toList) ("h".toList) rfl).2 (by decide)⟩

/-- C6 counterexample: with the dry-run flag set and a feed containing
one item, the pipeline performs zero segmentation/composition operations
(the empty trace records none), not one per feed item as the claim
states: a dry run skips the feed fetch entirely, so nothing is ever
segmented or composed. -/
theorem claim_C6_counterexample :
    runPipelineModel true segFnConst
      [⟨some ("body".toList), some ("https://x/9".toList)⟩]
      ("#src:".toList) 2 50 [] = RunResult.ok emptyRunTrace ∧
    emptyRunTrace.segmented.length = 0 ∧
    ([⟨some ("body".toList), some ("https://x/9".toList)⟩] : List Item).length = 1 := by
  decide

/-- C6 (amended): for every run with the dry-run flag set, the pipeline
skips everything: it fetches no items and therefore performs no
segmentation or composition, and it skips all durable writes (no ledger
create, append or rewrite, no lock write) and all remote submission —
the run trace is empty. -/
theorem claim_C6 (segFn : Str → RunResult RichText) (feedItems : List Item)
    (origLinkPfx : Str) (minSavePosts postTextLimit : Nat) (ledgerLines : List Str) :
    runPipelineModel true segFn feedItems origLinkPfx minSavePosts postTextLimit
      ledgerLines = RunResult.ok emptyRunTrace := by
  simp [runPipelineModel, fetchItemsModel, postItemsModel]

theorem FacetSlice_extend (content e : Str) (f : Facet) (mid : Str)
    (h : FacetSlice content f mid) : FacetSlice (content ++ e) f mid := by
  obtain ⟨pre, suf, hc, h1, h2⟩ := h
  exact ⟨pre, suf ++ e, by rw [hc]; simp [List.append_assoc], h1, h2⟩

theorem FacetProv_extend (segs : List RichTextSegment) (itemLink : Str)
    (content e : Str) (f : Facet) (h : FacetProv segs itemLink content f) :
    FacetProv segs itemLink (content ++ e) f := by
  obtain ⟨mid, hs, hp⟩ := h
  exact ⟨mid, FacetSlice_extend content e f mid hs, hp⟩

theorem FacetSlice_append_self (content mid : Str) (lnk : Str) :
    FacetSlice (content ++ mid) ⟨utf8Len content, utf8Len (content ++ mid), lnk⟩ mid :=
  ⟨content, [], by simp, rfl, (utf8Len_append content mid).symm⟩

theorem composeLoop_prov (segs0 : List RichTextSegment) (itemLink : Str) :
    ∀ (segs : List RichTextSegment) (limit : Nat) (content : Str) (facets : List Facet),
      (∀ t l, RichTextSegment.link t l ∈ segs → RichTextSegment.link t l ∈ segs0) →
      (∀ f ∈ facets, FacetProv segs0 itemLink content f) →
      ((∀ f ∈ (composeLoop limit content facets segs).facets,
          FacetProv segs0 itemLink (composeLoop limit content facets segs).content f) ∧
       ∃ ext, (composeLoop limit content facets segs).content = content ++ ext) := by
  intro segs
  induction segs with
  | nil =>
      intro limit content facets hsub hf
      constructor
      · simpa [composeLoop] using hf
      · exact ⟨[], by simp [composeLoop]⟩
  | cons seg rest ih =>
      intro limit content facets hsub hf
      cases seg with
      | plainText text =>
          by_cases hgt : text.length > limit
          · rw [show composeLoop limit content facets (RichTextSegment.plainText text :: rest) =
                { content := content ++ text.take limit, limitCount := 0,
                  needTruncate := true, facets := facets } from by
              simp [composeLoop, hgt]]
            constructor
            · intro f hfm
              exact FacetProv_extend segs0 itemLink content (text.take limit) f (hf f hfm)
            · exact ⟨text.take limit, rfl⟩
          · rw [show composeLoop limit content facets (RichTextSegment.plainText text :: rest) =
                composeLoop (limit - text.length) (content ++ text) facets rest from by
              simp [composeLoop, hgt]]
            have hsub2 : ∀ t l, RichTextSegment.link t l ∈ rest →
                RichTextSegment.link t l ∈ segs0 :=
              fun t l hm => hsub t l (List.mem_cons_of_mem _ hm)
            have hf2 : ∀ f ∈ facets, FacetProv segs0 itemLink (content ++ text) f :=
              fun f hfm => FacetProv_extend segs0 itemLink content text f (hf f hfm)
            obtain ⟨hall, ext, hext⟩ :=
              ih (limit - text.length) (content ++ text) facets hsub2 hf2
            exact ⟨hall, text ++ ext, by rw [hext, List.append_assoc]⟩
      | link text lnk =>
          have hmem0 : RichTextSegment.link text lnk ∈ segs0 :=
            hsub text lnk (List.mem_cons_self _ _)
          by_cases hgt : text.length > limit
          · rw [show composeLoop limit content facets (RichTextSegment.link text lnk :: rest) =
                { content := content ++ text.take limit, limitCount := 0,
                  needTruncate := true,
                  facets := facets ++
                    [⟨utf8Len content, utf8Len (content ++ text.take limit), lnk⟩] } from by
              simp [composeLoop, hgt]]
            constructor
            · intro f hfm
              rcases List.mem_append.mp hfm with hold | hnew
              · exact FacetProv_extend segs0 itemLink content (text.take limit) f (hf f hold)
              · rw [List.mem_singleton] at hnew
                subst hnew
                exact ⟨text.take limit,
                  FacetSlice_append_self content (text.take limit) lnk,
                  Or.inl ⟨text, limit, hmem0, rfl⟩⟩
            · exact ⟨text.take limit, rfl⟩
          · rw [show composeLoop limit content facets (RichTextSegment.link text lnk :: rest) =
                composeLoop (limit - text.length) (content ++ text)
                  (facets ++ [⟨utf8Len content, utf8Len (content ++ text), lnk⟩]) rest from by
              simp [composeLoop, hgt]]
            have hsub2 : ∀ t l, RichTextSegment.link t l ∈ rest →
                RichTextSegment.link t l ∈ segs0 :=
              fun t l hm => hsub t l (List.mem_cons_of_mem _ hm)
            have hf2 : ∀ f ∈ facets ++ [⟨utf8Len content, utf8Len (content ++ text), lnk⟩],
                FacetProv segs0 itemLink (content ++ text) f := by
              intro f hfm
              rcases List.mem_append.mp hfm with hold | hnew
              · exact FacetProv_extend segs0 itemLink content text f (hf f hold)
              · rw [List.mem_singleton] at hnew
                subst hnew
                exact ⟨text, FacetSlice_append_self content text lnk,
                  Or.inl ⟨text, text.length, hmem0, (List.take_length text).symm⟩⟩
            obtain ⟨hall, ext, hext⟩ :=
              ih (limit - text.length) (content ++ text)
                (facets ++ [⟨utf8Len content, utf8Len (content ++ text), lnk⟩]) hsub2 hf2
            exact ⟨hall, text ++ ext, by rw [hext, List.append_assoc]⟩

/-- C7: for every Composed Post produced by composition, every Annotation
Span's half-open byte range falls on UTF-8 character boundaries of the
output text, and slicing the text there yields the (possibly truncated)
display text appended for a Link segment with the span's target, or the
canonical item URL for the trailing span. -/
theorem claim_C7 (p : Nat) (origLinkPfx itemLink : Str) (segs : List RichTextSegment)
    (content : Str) (facets : List Facet)
    (h : compose p origLinkPfx itemLink segs = some (content, facets)) :
    ∀ f ∈ facets, FacetProv segs itemLink content f := by
  unfold compose at h
  by_cases hlt : p < origLinkPfx.length + itemLink.length + 4
  · rw [if_pos hlt] at h
    exact absurd h (by simp)
  · rw [if_neg hlt] at h
    have hfin := Option.some.inj h
    obtain ⟨hall, ext, hext⟩ :=
      composeLoop_prov segs itemLink segs (p - origLinkPfx.length - itemLink.length - 4)
        [] [] (fun t l hm => hm) (fun f hfm => absurd hfm (List.not_mem_nil f))
    simp only [composeFinish] at hfin
    rw [Prod.mk.injEq] at hfin
    obtain ⟨hcont, hfac⟩ := hfin
    subst hcont
    subst hfac
    obtain ⟨e1, he1⟩ : ∃ e1,
        (if (composeLoop (p - origLinkPfx.length - itemLink.length - 4) [] [] segs).needTruncate
         then (composeLoop (p - origLinkPfx.length - itemLink.length - 4) [] [] segs).content
           ++ ellipsisStr
         else (composeLoop (p - origLinkPfx.length - itemLink.length - 4) [] [] segs).content) =
        (composeLoop (p - origLinkPfx.length - itemLink.length - 4) [] [] segs).content ++ e1 := by
      by_cases ht :
          (composeLoop (p - origLinkPfx.length - itemLink.length - 4) [] [] segs).needTruncate
      · exact ⟨ellipsisStr, by rw [if_pos ht]⟩
      · exact ⟨[], by rw [if_neg ht, List.append_nil]⟩
    intro f hfm
    rcases List.mem_append.mp hfm with hold | hnew
    · have h1 := hall f hold
      rw [he1, List.append_assoc, List.append_assoc]
      exact FacetProv_extend segs itemLink _ _ f h1
    · rw [List.mem_singleton] at hnew
      subst hnew
      exact ⟨itemLink,
        FacetSlice_append_self _ itemLink itemLink,
        Or.inr ⟨rfl, rfl⟩⟩

/-- Witness for C7: composing one Link segment under budget 30 yields the
post "click#src:https://x/1" with two spans; both the link span (bytes
0-5, the full display text "click") and the trailing span (bytes 10-21,
the item URL) slice correctly. -/
theorem claim_C7_witness :
    FacetProv [RichTextSegment.link ("click".toList) ("https://a/b".toList)]
      ("https://x/1".toList) ("click#src:https://x/1".toList)
      ⟨0, 5, "https://a/b".toList⟩ ∧
    FacetProv [RichTextSegment.link ("click".toList) ("https://a/b".toList)]
      ("https://x/1".toList) ("click#src:https://x/1".toList)
      ⟨10, 21, "https://x/1".toList⟩ :=
  ⟨claim_C7 30 ("#src:".toList) ("https://x/1".toList)
      [RichTextSegment.link ("click".toList) ("https://a/b".toList)]
      ("click#src:https://x/1".toList)
      [⟨0, 5, "https://a/b".toList⟩, ⟨10, 21, "https://x/1".toList⟩]
      (by decide) ⟨0, 5, "https://a/b".toList⟩ (by decide),
   claim_C7 30 ("#src:".toList) ("https://x/1".toList)
      [RichTextSegment.link ("click".toList) ("https://a/b".toList)]
      ("click#src:https://x/1".toList)
      [⟨0, 5, "https://a/b".toList⟩, ⟨10, 21, "https://x/1".toList⟩]
      (by decide) ⟨10, 21, "https://x/1".toList⟩ (by decide)⟩
